import Mathlib

/-!
Verification development for the astroid resolution substrate:
the scope table / scope-chain lookup of
`astroid/nodes/scoped_nodes/mixin.py` (`LocalsDictNodeNG`) and the
module cache & resolver of `astroid/manager.py` (`AstroidManager`).

Statements are identified by natural-number ids; scope tables are
insertion-ordered association lists from names to lists of statement
ids, mirroring a Python `Dict[str, List[NodeNG]]`.
-/

namespace Astroid

/-- Association-list lookup mirroring Python dict access `d[k]`
(`none` corresponds to a `KeyError`). Insertion order of the list
mirrors dict insertion order. -/
def alookup {α β : Type _} [DecidableEq α] : List (α × β) → α → Option β
  | [], _ => none
  | (k, v) :: rest, key => if k = key then some v else alookup rest key

/-- Lookup of a name in a `locals` table. -/
def lookupAssocL (t : List (String × List Nat)) (name : String) :
    Option (List Nat) :=
  alookup t name

/-- Embedding of `LocalsDictNodeNG.set_local`:
`self.locals.setdefault(name, []).append(stmt)` — appends `stmt` to the
list bound to `name`, creating a fresh one-element list (at the end of
the dict, per dict insertion order) when `name` is absent. -/
def set_local (t : List (String × List Nat)) (name : String) (stmt : Nat) :
    List (String × List Nat) :=
  match t with
  | [] => [(name, [stmt])]
  | (k, v) :: rest =>
    if k = name then (k, v ++ [stmt]) :: rest
    else (k, v) :: set_local rest name stmt

/-- Kinds of scope-defining nodes. -/
inductive ScopeKind where
  | module
  | classDef
  | functionDef
  | lambdaE
  | genExpr
  | comprehension
deriving DecidableEq, Repr

/-- A scope-defining node: its kind and its `locals` table. -/
structure Scope where
  kind : ScopeKind
  locals : List (String × List Nat)
deriving DecidableEq, Repr

/-- Result of a scope-chain lookup: either a pair
`(owning scope, matching statements)` from a user scope, or the result
of the built-in pseudo-scope fallback. -/
inductive LookupRes where
  | found (scope : Scope) (stmts : List Nat)
  | builtin (stmts : List Nat)
deriving DecidableEq, Repr

/-- Modelled from the spec: `builtin_lookup` of
`astroid/nodes/scoped_nodes/utils.py` is not under `src/`; the spec
describes it as the "shared built-in pseudo-scope's lookup". We model
the builtin pseudo-scope by its locals table `bLocals` and return the
list bound to `name` there, or the empty tuple when absent. -/
def builtin_lookup (bLocals : List (String × List Nat)) (name : String) :
    LookupRes :=
  .builtin ((lookupAssocL bLocals name).getD [])

/-- Embedding of the `while pscope is not None: if not isinstance(pscope,
ClassDef): ... pscope = pscope.parent and pscope.parent.scope()` walk:
drops leading class-like scopes from the enclosing-scope chain. -/
def dropClassScopes : List Scope → List Scope
  | [] => []
  | s :: rest =>
    if s.kind = ScopeKind.classDef then dropClassScopes rest else s :: rest

/-- Embedding of `LocalsDictNodeNG._scope_lookup`. The scope chain is
given innermost-first: the head is `self`, the tail the successive
enclosing scopes (`self.parent.scope()`, its parent scope, ...). The
order-sensitive statement filter `_filter_stmts` (an external
collaborator, out of the spec's scope) is the parameter `φ`, applied
as `φ node raw self offset`; a `KeyError` on `self.locals[name]` gives
the empty tuple without invoking the filter. The recursive call
`pscope.scope_lookup(node, name)` uses the default `offset=0`. -/
def scope_lookup (φ : Nat → List Nat → Scope → Nat → List Nat)
    (bLocals : List (String × List Nat)) (node : Nat) (name : String) :
    List Scope → Nat → LookupRes
  | [], _ => builtin_lookup bLocals name
  | self :: parents, offset =>
    let stmts : List Nat :=
      match lookupAssocL self.locals name with
      | none => []
      | some raw => φ node raw self offset
    if stmts.isEmpty then
      match hp : dropClassScopes parents with
      | [] => builtin_lookup bLocals name
      | p :: rest => scope_lookup φ bLocals node name (p :: rest) 0
    else
      .found self stmts
termination_by l _ => l.length
decreasing_by
  simp_wf
  have h1 : (dropClassScopes parents).length ≤ parents.length := by
    clear hp
    induction parents with
    | nil => simp [dropClassScopes]
    | cons s rest ih =>
      simp only [dropClassScopes]
      split
      · exact Nat.le_succ_of_le ih
      · exact Nat.le_refl _
  rw [hp] at h1
  simpa using Nat.lt_succ_of_le h1

/-- Embedding of `LocalsDictNodeNG.__getitem__`:
`return self.locals[item][0]`. A missing key is a `KeyError`; an empty
bound list would be an `IndexError` on `[0]`. -/
inductive GetResult where
  | keyError
  | indexError
  | ok (stmt : Nat)
deriving DecidableEq, Repr

/-- Result of `self.locals[item][0]` on a raw table. -/
def getItem (t : List (String × List Nat)) (name : String) : GetResult :=
  match lookupAssocL t name with
  | none => .keyError
  | some [] => .indexError
  | some (s :: _) => .ok s

/-- A table built from the empty dict by a sequence of binds, each
performed through `set_local` (which also underlies `__setitem__` and
`add_local_node`). -/
def bindAll (binds : List (String × Nat)) : List (String × List Nat) :=
  binds.foldl (fun t p => set_local t p.1 p.2) []

/-- All statements bound to `name` by a bind sequence, in order. -/
def allStmts (binds : List (String × Nat)) (name : String) : List Nat :=
  binds.filterMap (fun p => if p.1 = name then some p.2 else none)

/-- Specification combinator for table lookups after a bind sequence:
the previous binding (if any) extended by the newly appended
statements, with an untouched absent key staying absent. -/
def optApp : Option (List Nat) → List Nat → Option (List Nat)
  | none, [] => none
  | none, l => some l
  | some v, l => some (v ++ l)

/-! Module cache & resolver (`astroid/manager.py`). Exceptions of the
`AstroidBuildingError` family carry a message, an optional cause (with
the cause's own traceback), and an optional traceback; `with_traceback
(None)` strips the latter. External collaborators (the tree builder,
`modutils`, `zipimport`, the spec finder `file_info_from_modpath`) are
parameters of the embedded operations. -/

/-- An `AstroidBuildingError` (or its subclass `AstroidImportError`)
value: message, optional cause as `(cause message, cause traceback)`,
and the exception's own traceback. -/
structure Err where
  msg : String
  cause : Option (String × Option Nat) := none
  traceback : Option Nat := none
deriving DecidableEq, Repr

/-- Embedding of `e.with_traceback(None)`. -/
def stripTb (e : Err) : Err := { e with traceback := none }

/-- A built module tree, reduced to the metadata the manager consults:
its `name` and its `file` attribute. -/
structure ModTree where
  name : String
  file : Option String := none
deriving DecidableEq, Repr

/-- Module kinds reported by the spec finder
(`spec.ModuleType` in `astroid.interpreter._import`). -/
inductive ModType where
  | pyZipmodule
  | cBuiltin
  | cExtension
  | pyCompiled
  | pyNamespace
  | pyFrozen
  | pySource
deriving DecidableEq, Repr

/-- A found module spec: kind, optional location, and namespace-package
search locations. -/
structure FoundSpec where
  type : ModType
  location : Option String := none
  searchLocs : List String := []
deriving DecidableEq, Repr

/-- A spec-cache slot: either a resolved spec or a cached failure. -/
inductive CacheVal where
  | spec (s : FoundSpec)
  | failure (e : Err)
deriving DecidableEq, Repr

/-- State of `file_from_module_name`: the `_mod_file_cache` plus a
counter of how many times the expensive underlying lookup
(`file_info_from_modpath`) was actually performed. -/
structure SpecState where
  cache : List ((String × Option String) × CacheVal) := []
  computeCount : Nat := 0
deriving DecidableEq, Repr

/-- Embedding of the `AstroidImportError` built in
`file_from_module_name` when `file_info_from_modpath` raises: the
message names the module and the cause is stored with its traceback
removed (`error=e.with_traceback(None)`); a freshly constructed
exception has no traceback of its own. -/
def wrapImportErr (modname : String) (e : Err) : Err :=
  { msg := "Failed to import module " ++ modname ++ " with error: " ++ e.msg,
    cause := some (e.msg, none),
    traceback := none }

/-- Embedding of `AstroidManager.file_from_module_name`. The expensive
spec lookup `file_info_from_modpath` is the parameter `fileInfo`
(raising `ImportError` is its `.error` case). A cache miss computes and
stores either the spec or the wrapped failure, bumping the compute
counter; then, on both paths, a failure value is raised with its
traceback stripped and a spec value is returned. -/
def file_from_module_name (fileInfo : String → Option String → Except Err FoundSpec)
    (st : SpecState) (modname : String) (contextfile : Option String) :
    Except Err FoundSpec × SpecState :=
  let (value, st1) :=
    match alookup st.cache (modname, contextfile) with
    | some v => (v, st)
    | none =>
      let v : CacheVal :=
        match fileInfo modname contextfile with
        | .ok s => .spec s
        | .error e => .failure (wrapImportErr modname (stripTb e))
      (v, { cache := st.cache ++ [((modname, contextfile), v)],
            computeCount := st.computeCount + 1 })
  match value with
  | .failure e => (.error (stripTb e), st1)
  | .spec s => (.ok s, st1)

/-- Embedding of the failure-hook loop of `ast_from_module_name`:
`for hook in self._failed_import_hooks: try: return hook(modname)
except AstroidBuildingError: pass` and then `raise e` with the original
error. -/
def runFailedImportHooks (hooks : List (String → Except Err ModTree))
    (modname : String) (original : Err) : Except Err ModTree :=
  match hooks with
  | [] => .error original
  | h :: rest =>
    match h modname with
    | .ok t => .ok t
    | .error _ => runFailedImportHooks rest modname original

/-- Instrumented variant of the hook loop that also counts how many
hooks were invoked, to make "later hooks are never invoked"
observable. -/
def runFailedImportHooksCount (hooks : List (String → Except Err ModTree))
    (modname : String) (original : Err) : Except Err ModTree × Nat :=
  match hooks with
  | [] => (.error original, 0)
  | h :: rest =>
    match h modname with
    | .ok t => (.ok t, 1)
    | .error _ =>
      let (r, n) := runFailedImportHooksCount rest modname original
      (r, n + 1)

/-- Embedding of `ZIP_IMPORT_EXTS`. -/
def ZIP_IMPORT_EXTS : List String := [".zip", ".egg", ".whl", ".pyz", ".pyzw"]

/-- Loop body of `zip_import_data` over the candidate suffixes.
`trySplit ext filepath` models `filepath.rsplit(ext + os.path.sep, 1)`
(`none` is the `ValueError` of a failed split, handled by `continue`);
`extract ext eggpath resource` models opening the zipimporter, reading
the resource's source and building the tree (its `.error` case is the
`except Exception: continue` of the source, absorbing any failure). -/
def zipImportGo (trySplit : String → String → Option (String × String))
    (extract : String → String → String → Except Unit ModTree)
    (filepath : String) : List String → Option ModTree
  | [] => none
  | ext :: rest =>
    match trySplit ext filepath with
    | none => zipImportGo trySplit extract filepath rest
    | some (eggpath, resource) =>
      match extract ext eggpath resource with
      | .ok m => some m
      | .error _ => zipImportGo trySplit extract filepath rest

/-- Embedding of `AstroidManager.zip_import_data`: tries each suffix of
`ZIP_IMPORT_EXTS` in order and returns `None` when no suffix yields a
tree. -/
def zip_import_data (trySplit : String → String → Option (String × String))
    (extract : String → String → String → Except Unit ModTree)
    (filepath : String) : Option ModTree :=
  zipImportGo trySplit extract filepath ZIP_IMPORT_EXTS

/-- External collaborators and mutable state consulted by
`ast_from_module_name`, gathered as an environment. `fileFromModuleName`
stands for the (already spec-cached) result of `file_from_module_name`,
whose caching discipline is embedded separately above; `loadModule` is
`load_module_from_name` (its `.error` carries the message of an
arbitrary exception); `astFromFile` is `self.ast_from_file` with
`fallback=False`; `hooks` is `self._failed_import_hooks`. -/
structure ResolveEnv where
  cache : List (String × ModTree)
  buildStub : String → ModTree
  fileFromModuleName : String → Option String → Except Err FoundSpec
  zipData : Option String → Option ModTree
  canLoadExtension : String → Bool
  loadModule : String → Except String Nat
  astFromModuleObj : Nat → String → Except Err ModTree
  buildNamespace : String → List String → ModTree
  astFromFile : String → String → Except Err ModTree
  hooks : List (String → Except Err ModTree)

/-- Embedding of the tail of `ast_from_module_name`: after the typed
branches, `if found_spec.location is None: raise AstroidImportError(...)`
else `return self.ast_from_file(found_spec.location, modname,
fallback=False)`. -/
def defaultFilePath (env : ResolveEnv) (modname : String) (fs : FoundSpec) :
    Except Err ModTree :=
  match fs.location with
  | none => .error { msg := "Can not find a file for module " ++ modname }
  | some loc => env.astFromFile loc modname

/-- Embedding of the native-module branch: `load_module_from_name`
wrapped into an `AstroidImportError` carrying the original cause, then
`ast_from_module`. -/
def loadExtPath (env : ResolveEnv) (modname : String) : Except Err ModTree :=
  match env.loadModule modname with
  | .error cause =>
    .error { msg := "Loading " ++ modname ++ " failed", cause := some (cause, none) }
  | .ok m => env.astFromModuleObj m modname

/-- Embedding of the body of the `try` block of `ast_from_module_name`:
spec lookup followed by the branch on the found spec's type. -/
def resolveSpecBody (env : ResolveEnv) (modname : String)
    (contextFile : Option String) : Except Err ModTree :=
  match env.fileFromModuleName modname contextFile with
  | .error e => .error e
  | .ok fs =>
    match fs.type with
    | .pyZipmodule =>
      match env.zipData fs.location with
      | some m => .ok m
      | none => defaultFilePath env modname fs
    | .cBuiltin => loadExtPath env modname
    | .cExtension =>
      if env.canLoadExtension modname then loadExtPath env modname
      else .ok (env.buildStub modname)
    | .pyCompiled =>
      .error { msg := "Unable to load compiled module " ++ modname }
    | .pyNamespace => .ok (env.buildNamespace modname fs.searchLocs)
    | .pyFrozen =>
      match fs.location with
      | none => .ok (env.buildStub modname)
      | some loc => env.astFromFile loc modname
    | .pySource => defaultFilePath env modname fs

/-- Embedding of `AstroidManager.ast_from_module_name`: cache hit, the
`__main__` stub, then the `try` body; an `AstroidBuildingError` from
the body runs the failed-import hooks, re-raising the original error
when every hook fails. The working-directory redirection around the
body is global state restored in `finally` and is not modelled. -/
def ast_from_module_name (env : ResolveEnv) (modname : String)
    (contextFile : Option String) : Except Err ModTree :=
  match alookup env.cache modname with
  | some t => .ok t
  | none =>
    if modname = "__main__" then .ok (env.buildStub modname)
    else
      match resolveSpecBody env modname contextFile with
      | .ok t => .ok t
      | .error e => runFailedImportHooks env.hooks modname e

/-- Environment of `ast_from_file`: `get_source_file` (`none` is the
`NoSourceFile` exception), `modpath_from_file` (`none` is its
`ImportError`), and the module cache. -/
structure FileEnv where
  getSourceFile : String → Option String
  modpathFromFile : String → Option (List String)
  cache : List (String × ModTree)

/-- Embedding of the head of `ast_from_file`: `filepath =
get_source_file(filepath, include_no_ext=True); source = True` with
`NoSourceFile` leaving both untouched. Returns the (possibly
normalized) path and the updated `source` flag. -/
def normalizedSource (getSourceFile : String → Option String)
    (filepath : String) (source : Bool) : String × Bool :=
  match getSourceFile filepath with
  | some p => (p, true)
  | none => (filepath, source)

/-- Embedding of the `modname` defaulting of `ast_from_file`:
`.".".join(modpath_from_file(filepath))` with the `ImportError`
fallback `modname = filepath`. -/
def derivedModname (modpathFromFile : String → Option (List String))
    (filepath : String) : Option String → String
  | some m => m
  | none =>
    match modpathFromFile filepath with
    | some parts => String.intercalate "." parts
    | none => filepath

/-- Outcome of `ast_from_file`, tagging which exit is taken: the cache
short-circuit, a fresh `file_build` from source, the
`ast_from_module_name` fallback, or the final `AstroidBuildingError`. -/
inductive AFFOutcome where
  | cachedHit (t : ModTree)
  | sourceBuild (filepath : String) (modname : String)
  | fallbackByName (modname : String)
  | buildError (filepath : String)
deriving DecidableEq, Repr

/-- Embedding of the cache test of `ast_from_file`: `modname in
self.astroid_cache and self.astroid_cache[modname].file == filepath`. -/
def cacheHitFile (cache : List (String × ModTree)) (modname : String)
    (filepath : String) : Option ModTree :=
  match alookup cache modname with
  | some t => if t.file = some filepath then some t else none
  | none => none

/-- Embedding of `AstroidManager.ast_from_file`. The empty string is
the only falsy `modname` after defaulting, mirroring `if fallback and
modname`. -/
def ast_from_file (env : FileEnv) (filepath : String) (modname : Option String)
    (fallback : Bool) (source : Bool) : AFFOutcome :=
  let fs := normalizedSource env.getSourceFile filepath source
  let mn := derivedModname env.modpathFromFile fs.1 modname
  match cacheHitFile env.cache mn fs.1 with
  | some t => .cachedHit t
  | none =>
    if fs.2 then .sourceBuild fs.1 mn
    else if fallback = true ∧ mn ≠ "" then .fallbackByName mn
    else .buildError fs.1

/-- Exceptions observable from `ast_from_class`: the
`AstroidBuildingError` family (with `AstroidImportError` as a subclass)
and a plain `AttributeError` that escapes unwrapped. -/
inductive PyErr where
  | buildingError (msg : String)
  | importError (msg : String)
  | attributeError
deriving DecidableEq, Repr

/-- Tests membership in the `AstroidBuildingError` family
(`AstroidImportError` is a subclass). -/
def isBuildingError : PyErr → Bool
  | .buildingError _ => true
  | .importError _ => true
  | .attributeError => false

/-- A live class object, reduced to whether it exposes a module
attribute and a name attribute. -/
structure PyClass where
  moduleAttr : Option String
  nameAttr : Option String
deriving DecidableEq, Repr

/-- Embedding of `AstroidManager.ast_from_class`. A missing module
attribute (with no `modname` given) is caught and wrapped into an
`AstroidBuildingError`; the later access `klass.__name__` is not
guarded, so a missing name attribute raises a plain `AttributeError`
that propagates unwrapped. `astFromModuleName` and `getattrFirst`
(`modastroid.getattr(...)[0]`) are external here. -/
def ast_from_class (astFromModuleName : String → Except PyErr ModTree)
    (getattrFirst : ModTree → String → Except PyErr Nat)
    (klass : PyClass) (modname : Option String) : Except PyErr Nat :=
  match
    (match modname with
     | some m => Except.ok m
     | none =>
       match klass.moduleAttr with
       | some m => Except.ok m
       | none =>
         Except.error (PyErr.buildingError "Unable to get module for class"))
  with
  | .error e => .error e
  | .ok mn =>
    match astFromModuleName mn with
    | .error e => .error e
    | .ok tree =>
      match klass.nameAttr with
      | none => .error .attributeError
      | some n => getattrFirst tree n

/-! Borg state and the transform pipeline, for `clear_cache`. The class
attribute `AstroidManager.brain` holds the one shared `astroid_cache`
dict and a reference to the current `TransformVisitor` object; each
instance's `__init__` copies those references into instance attributes.
`clear_cache` empties the shared cache dict in place, rebinds
`brain["_transform"]` to a freshly constructed visitor, bootstraps the
builtins tree into the cache, and re-executes the brain plugin modules
(which register their transforms against the new visitor). Visitor
objects live in a heap keyed by allocation id so that the aliasing of
`self._transform` is explicit. -/

/-- Shared Borg state: the module cache dict, the heap of
`TransformVisitor` objects (id ↦ registered transform ids), the next
fresh object id, and which visitor `brain["_transform"]` references. -/
structure BrainState where
  astroidCache : List (String × ModTree)
  visitors : List (Nat × List Nat)
  nextId : Nat
  brainTransformRef : Nat
deriving DecidableEq, Repr

/-- An `AstroidManager` instance: `__init__` captures the current
`brain["_transform"]` reference into `self._transform`. -/
structure ManagerInstance where
  transformRef : Nat
deriving DecidableEq, Repr

/-- Initial Borg state: empty cache, one fresh `TransformVisitor`. -/
def initialBrain : BrainState :=
  { astroidCache := [], visitors := [(0, [])], nextId := 1,
    brainTransformRef := 0 }

/-- Embedding of `AstroidManager.__init__` (the Borg alias capture). -/
def newManager (st : BrainState) : ManagerInstance :=
  { transformRef := st.brainTransformRef }

/-- Appends a transform to the visitor object with the given id. -/
def registerVisitorTransform (vs : List (Nat × List Nat)) (id : Nat)
    (t : Nat) : List (Nat × List Nat) :=
  match vs with
  | [] => []
  | (k, l) :: rest =>
    if k = id then (k, l ++ [t]) :: rest
    else (k, l) :: registerVisitorTransform rest id t

/-- Embedding of `manager.register_transform(...)`: registers against
the visitor object the instance captured at construction. -/
def register_transform (st : BrainState) (inst : ManagerInstance) (t : Nat) :
    BrainState :=
  { st with
    visitors := registerVisitorTransform st.visitors inst.transformRef t }

/-- Embedding of `manager.visit_transforms(node)`: the transforms that
fire are those registered on the visitor the instance references. -/
def visit_transforms (st : BrainState) (inst : ManagerInstance) : List Nat :=
  (alookup st.visitors inst.transformRef).getD []

/-- The freshly rebuilt builtins bootstrap tree. -/
def bootstrapTree : ModTree := { name := "builtins" }

/-- Embedding of `AstroidManager.clear_cache`:
`self.astroid_cache.clear()` empties the shared dict,
`AstroidManager.brain["_transform"] = TransformVisitor()` rebinds the
brain to a freshly allocated visitor (existing instances keep their old
reference), `self.bootstrap()` re-inserts the builtins tree, and the
brain-plugin reload registers `pluginTransforms` on the new visitor. -/
def clear_cache (st : BrainState) (pluginTransforms : List Nat) : BrainState :=
  { astroidCache := [(bootstrapTree.name, bootstrapTree)],
    visitors := st.visitors ++ [(st.nextId, pluginTransforms)],
    nextId := st.nextId + 1,
    brainTransformRef := st.nextId }

/-! Helper lemmas shared by the claim theorems. -/

theorem dropClassScopes_length_le (l : List Scope) :
    (dropClassScopes l).length ≤ l.length := by
  induction l with
  | nil => simp [dropClassScopes]
  | cons s rest ih =>
    simp only [dropClassScopes]
    split
    · exact Nat.le_succ_of_le ih
    · exact Nat.le_refl _

theorem runFailedImportHooksCount_fst (hooks : List (String → Except Err ModTree))
    (modname : String) (original : Err) :
    (runFailedImportHooksCount hooks modname original).1 =
      runFailedImportHooks hooks modname original := by
  induction hooks with
  | nil => rfl
  | cons h rest ih =>
    simp only [runFailedImportHooksCount, runFailedImportHooks]
    cases h modname with
    | ok t => rfl
    | error e => simpa using ih

theorem alookup_append {α β : Type _} [DecidableEq α] (xs ys : List (α × β))
    (k : α) :
    alookup (xs ++ ys) k =
      match alookup xs k with
      | some v => some v
      | none => alookup ys k := by
  induction xs with
  | nil => simp [alookup]
  | cons p rest ih =>
    obtain ⟨a, b⟩ := p
    by_cases h : a = k
    · simp [alookup, h]
    · simp [alookup, h, ih]

theorem alookup_none_of_keys {α β : Type _} [DecidableEq α]
    (l : List (α × β)) (k : α) (h : ∀ p ∈ l, p.1 ≠ k) :
    alookup l k = none := by
  induction l with
  | nil => rfl
  | cons p rest ih =>
    obtain ⟨a, b⟩ := p
    have ha : a ≠ k := h (a, b) (by simp)
    simp only [alookup, if_neg ha]
    exact ih fun q hq => h q (by simp [hq])

theorem alookup_some_mem {α β : Type _} [DecidableEq α]
    (l : List (α × β)) (k : α) (v : β) (h : alookup l k = some v) :
    (k, v) ∈ l := by
  induction l with
  | nil => simp [alookup] at h
  | cons p rest ih =>
    obtain ⟨a, b⟩ := p
    by_cases ha : a = k
    · subst ha
      have h2 : some b = some v := by simpa [alookup] using h
      cases h2
      simp
    · simp only [alookup, if_neg ha] at h
      exact List.mem_cons_of_mem _ (ih h)

theorem lookupAssocL_set_local (t : List (String × List Nat)) (n : String)
    (s : Nat) (m : String) :
    lookupAssocL (set_local t n s) m =
      if m = n then some ((lookupAssocL t n).getD [] ++ [s])
      else lookupAssocL t m := by
  induction t with
  | nil =>
    by_cases h : m = n
    · subst h; simp [set_local, lookupAssocL, alookup]
    · simp [set_local, lookupAssocL, alookup, h, Ne.symm h]
  | cons p rest ih =>
    obtain ⟨k, v⟩ := p
    by_cases hkn : k = n
    · subst hkn
      by_cases hmk : m = k
      · subst hmk; simp [set_local, lookupAssocL, alookup]
      · simp [set_local, lookupAssocL, alookup, hmk, Ne.symm hmk]
    · by_cases hmk : m = k
      · subst hmk
        simp [set_local, lookupAssocL, alookup, hkn, Ne.symm hkn,
          fun h : m = n => hkn (h ▸ rfl)]
      · simp only [lookupAssocL, alookup] at ih
        simp [set_local, lookupAssocL, alookup, hkn, Ne.symm hmk, ih]

theorem set_local_entries_ne_nil (t : List (String × List Nat)) (n : String)
    (s : Nat) (h : ∀ p ∈ t, p.2 ≠ []) :
    ∀ p ∈ set_local t n s, p.2 ≠ [] := by
  induction t with
  | nil =>
    intro p hp
    simp only [set_local, List.mem_singleton] at hp
    subst hp
    simp
  | cons q rest ih =>
    obtain ⟨k, v⟩ := q
    intro p hp
    by_cases hk : k = n
    · simp only [set_local, if_pos hk, List.mem_cons] at hp
      rcases hp with hp | hp
      · subst hp
        have := h (k, v) (by simp)
        simp
      · exact h p (by simp [hp])
    · simp only [set_local, if_neg hk, List.mem_cons] at hp
      rcases hp with hp | hp
      · subst hp
        exact h (k, v) (by simp)
      · exact ih (fun q hq => h q (by simp [hq])) p hp

theorem dropClassScopes_mem (l : List Scope) (s : Scope)
    (h : s ∈ dropClassScopes l) : s ∈ l := by
  induction l with
  | nil => simp [dropClassScopes] at h
  | cons a rest ih =>
    simp only [dropClassScopes] at h
    split at h
    · exact List.mem_cons_of_mem _ (ih h)
    · exact h

theorem dropClassScopes_all_class (cs : List Scope) (l : List Scope)
    (h : ∀ c ∈ cs, c.kind = ScopeKind.classDef) :
    dropClassScopes (cs ++ l) = dropClassScopes l := by
  induction cs with
  | nil => simp
  | cons c rest ih =>
    have hc : c.kind = ScopeKind.classDef := h c (by simp)
    simp only [List.cons_append, dropClassScopes, if_pos hc]
    exact ih fun d hd => h d (by simp [hd])

theorem scope_lookup_absent_step
    (φ : Nat → List Nat → Scope → Nat → List Nat)
    (bL : List (String × List Nat)) (node : Nat) (name : String)
    (self : Scope) (parents : List Scope) (offset : Nat)
    (h : lookupAssocL self.locals name = none) :
    scope_lookup φ bL node name (self :: parents) offset =
      match dropClassScopes parents with
      | [] => builtin_lookup bL name
      | p :: rest => scope_lookup φ bL node name (p :: rest) 0 := by
  rw [scope_lookup, h]
  cases hd : dropClassScopes parents with
  | nil => simp [hd]
  | cons p rest => simp [hd]

theorem scope_lookup_filtered_empty_step
    (φ : Nat → List Nat → Scope → Nat → List Nat)
    (bL : List (String × List Nat)) (node : Nat) (name : String)
    (self : Scope) (parents : List Scope) (offset : Nat) (raw : List Nat)
    (h : lookupAssocL self.locals name = some raw)
    (hφ : φ node raw self offset = []) :
    scope_lookup φ bL node name (self :: parents) offset =
      match dropClassScopes parents with
      | [] => builtin_lookup bL name
      | p :: rest => scope_lookup φ bL node name (p :: rest) 0 := by
  rw [scope_lookup, h]
  cases hd : dropClassScopes parents with
  | nil => simp [hd, hφ]
  | cons p rest => simp [hd, hφ]

theorem scope_lookup_found_step
    (φ : Nat → List Nat → Scope → Nat → List Nat)
    (bL : List (String × List Nat)) (node : Nat) (name : String)
    (self : Scope) (parents : List Scope) (offset : Nat) (raw : List Nat)
    (h : lookupAssocL self.locals name = some raw)
    (hφ : φ node raw self offset ≠ []) :
    scope_lookup φ bL node name (self :: parents) offset =
      .found self (φ node raw self offset) := by
  rw [scope_lookup, h]
  simp [hφ]

theorem scope_lookup_absent_aux
    (φ : Nat → List Nat → Scope → Nat → List Nat)
    (bL : List (String × List Nat)) (node : Nat) (name : String) :
    ∀ n chain offset, chain.length ≤ n →
      (∀ s ∈ chain, lookupAssocL s.locals name = none) →
      scope_lookup φ bL node name chain offset = builtin_lookup bL name := by
  intro n
  induction n with
  | zero =>
    intro chain offset hlen _
    have : chain = [] := List.eq_nil_of_length_eq_zero (Nat.le_zero.mp hlen)
    subst this
    rw [scope_lookup]
  | succ n ih =>
    intro chain offset hlen h
    cases chain with
    | nil => rw [scope_lookup]
    | cons self parents =>
      have hs : lookupAssocL self.locals name = none := h self (by simp)
      rw [scope_lookup_absent_step φ bL node name self parents offset hs]
      cases hd : dropClassScopes parents with
      | nil => rfl
      | cons p rest =>
        have hlen2 : (p :: rest).length ≤ n := by
          have h1 : (dropClassScopes parents).length ≤ parents.length :=
            dropClassScopes_length_le parents
          rw [hd] at h1
          have h2 : parents.length ≤ n := by
            simpa using Nat.le_of_succ_le_succ hlen
          exact Nat.le_trans h1 h2
        refine ih (p :: rest) 0 hlen2 ?_
        intro s hsm
        have : s ∈ parents := by
          have : s ∈ dropClassScopes parents := by rw [hd]; exact hsm
          exact dropClassScopes_mem parents s this
        exact h s (by simp [this])

theorem optApp_nil (o : Option (List Nat)) : optApp o [] = o := by
  cases o with
  | none => rfl
  | some v => simp [optApp]

theorem foldl_set_local_lookup (binds : List (String × Nat)) :
    ∀ (t : List (String × List Nat)) (name : String),
      lookupAssocL (binds.foldl (fun t p => set_local t p.1 p.2) t) name
        = optApp (lookupAssocL t name) (allStmts binds name) := by
  induction binds with
  | nil =>
    intro t name
    simp [allStmts, optApp_nil]
  | cons q rest ih =>
    intro t name
    obtain ⟨n, s⟩ := q
    simp only [List.foldl_cons]
    rw [ih, lookupAssocL_set_local]
    by_cases hn : name = n
    · subst hn
      simp only [if_pos rfl, allStmts, List.filterMap_cons, if_pos rfl]
      cases hlt : lookupAssocL t name with
      | none => simp [optApp]
      | some v => simp [optApp]
    · have hn2 : ¬(n = name) := fun h2 => hn h2.symm
      simp [if_neg hn, allStmts, List.filterMap_cons, if_neg hn2]

theorem bindAll_entries_ne_nil (binds : List (String × Nat)) :
    ∀ t, (∀ p ∈ t, p.2 ≠ []) →
      ∀ p ∈ binds.foldl (fun t p => set_local t p.1 p.2) t, p.2 ≠ [] := by
  induction binds with
  | nil => intro t ht; simpa using ht
  | cons q rest ih =>
    intro t ht
    simp only [List.foldl_cons]
    exact ih (set_local t q.1 q.2) (set_local_entries_ne_nil t q.1 q.2 ht)

theorem allStmts_eq_nil (binds : List (String × Nat)) (name : String) :
    allStmts binds name = [] ↔ ∀ p ∈ binds, p.1 ≠ name := by
  simp only [allStmts, List.filterMap_eq_nil_iff]
  constructor
  · intro h p hp
    have := h p hp
    by_contra hc
    simp [hc] at this
  · intro h p hp
    simp [h p hp]

theorem find?_allStmts_head (binds : List (String × Nat)) (name : String) :
    ∀ p, binds.find? (fun q => q.1 == name) = some p →
      ∃ rest2, allStmts binds name = p.2 :: rest2 := by
  induction binds with
  | nil => intro p h; simp at h
  | cons q rest ih =>
    intro p h
    by_cases hq : q.1 = name
    · rw [List.find?_cons_of_pos _ (by simpa using hq)] at h
      cases h
      exact ⟨allStmts rest name, by simp [allStmts, List.filterMap_cons, hq]⟩
    · rw [List.find?_cons_of_neg _ (by simpa using hq)] at h
      obtain ⟨rest2, hr⟩ := ih p h
      exact ⟨rest2, by simp [allStmts, List.filterMap_cons, hq, hr.symm]⟩

/-! Claim theorems. -/

/-- C6: binding through `set_local` appends to the name's list and
never replaces an earlier entry; in a scope where `x` was unbound,
`set_local x s1` then `set_local x s2` makes the raw (pre-filter)
lookup of `x` return exactly `[s1, s2]` in that order. -/
theorem set_local_append_round_trip (t : List (String × List Nat)) (x : String)
    (s1 s2 : Nat) (h : lookupAssocL t x = none) :
    lookupAssocL (set_local (set_local t x s1) x s2) x = some [s1, s2]
    ∧ ∀ n s m, lookupAssocL (set_local t n s) m =
        if m = n then some ((lookupAssocL t n).getD [] ++ [s])
        else lookupAssocL t m := by
  constructor
  · rw [lookupAssocL_set_local, if_pos rfl, lookupAssocL_set_local, if_pos rfl, h]
    rfl
  · intro n s m
    exact lookupAssocL_set_local t n s m

/-- Witness for C6 at the empty scope table. -/
theorem set_local_append_round_trip_witness :
    lookupAssocL [] "x" = none
    ∧ lookupAssocL (set_local (set_local [] "x" 1) "x" 2) "x" = some [1, 2] :=
  ⟨rfl, (set_local_append_round_trip [] "x" 1 2 rfl).1⟩

/-- C10: a scope table built only through its binding operations maps
every present name to a non-empty list, `__getitem__` on a bound name
returns the first bound statement (never an `IndexError`), and a
`KeyError` occurs exactly for names never bound in that scope. -/
theorem locals_table_invariant (binds : List (String × Nat)) (name : String) :
    (∀ p ∈ bindAll binds, p.2 ≠ [])
    ∧ (getItem (bindAll binds) name = GetResult.keyError ↔
        ∀ p ∈ binds, p.1 ≠ name)
    ∧ getItem (bindAll binds) name ≠ GetResult.indexError
    ∧ (∀ p, binds.find? (fun q => q.1 == name) = some p →
        getItem (bindAll binds) name = GetResult.ok p.2) := by
  have hlk : lookupAssocL (bindAll binds) name
      = optApp none (allStmts binds name) := by
    have h0 := foldl_set_local_lookup binds [] name
    have hnil : lookupAssocL [] name = none := rfl
    rw [hnil] at h0
    exact h0
  have hgi : getItem (bindAll binds) name =
      (match allStmts binds name with
       | [] => GetResult.keyError
       | a :: _ => GetResult.ok a) := by
    unfold getItem
    rw [hlk]
    cases allStmts binds name with
    | nil => rfl
    | cons a l => rfl
  refine ⟨bindAll_entries_ne_nil binds [] (by simp), ?_, ?_, ?_⟩
  · rw [hgi]
    cases hal : allStmts binds name with
    | nil =>
      constructor
      · intro _
        exact (allStmts_eq_nil binds name).mp hal
      · intro _
        rfl
    | cons a l =>
      constructor
      · intro h2
        exact absurd h2 (by simp)
      · intro h2
        have h3 : allStmts binds name = [] := (allStmts_eq_nil binds name).mpr h2
        rw [hal] at h3
        simp at h3
  · rw [hgi]
    cases allStmts binds name with
    | nil => simp
    | cons a l => simp
  · intro p hfind
    obtain ⟨rest2, hr⟩ := find?_allStmts_head binds name p hfind
    rw [hgi, hr]

/-- Witness for C10 at a three-bind sequence with a repeated name. -/
theorem locals_table_invariant_witness :
    (3 : Nat) ∈ ([("x", 3), ("x", 4), ("y", 5)].map Prod.snd)
    ∧ getItem (bindAll [("x", 3), ("x", 4), ("y", 5)]) "x" = GetResult.ok 3 :=
  ⟨by decide,
    (locals_table_invariant [("x", 3), ("x", 4), ("y", 5)] "x").2.2.2
      ("x", 3) (by decide)⟩

/-- C7: a `scope_lookup` of a name bound in no scope along the chain
falls back to the shared built-in pseudo-scope's lookup rather than
failing. -/
theorem scope_lookup_builtin_fallback
    (φ : Nat → List Nat → Scope → Nat → List Nat)
    (bL : List (String × List Nat)) (node : Nat) (name : String)
    (chain : List Scope) (offset : Nat)
    (h : ∀ s ∈ chain, lookupAssocL s.locals name = none) :
    scope_lookup φ bL node name chain offset = builtin_lookup bL name :=
  scope_lookup_absent_aux φ bL node name chain.length chain offset
    (Nat.le_refl _) h

/-- Witness for C7: a function scope enclosed only by a class scope,
neither binding the name, resolves via the builtin pseudo-scope. -/
theorem scope_lookup_builtin_fallback_witness :
    (∀ s ∈ [Scope.mk ScopeKind.functionDef [],
            Scope.mk ScopeKind.classDef [("y", [1])]],
        lookupAssocL s.locals "x" = none)
    ∧ scope_lookup (fun _ raw _ _ => raw) [("x", [9])] 0 "x"
        [Scope.mk ScopeKind.functionDef [],
         Scope.mk ScopeKind.classDef [("y", [1])]] 0
      = LookupRes.builtin [9] := by
  refine ⟨by decide, ?_⟩
  rw [scope_lookup_builtin_fallback (fun _ raw _ _ => raw) [("x", [9])] 0 "x"
    [Scope.mk ScopeKind.functionDef [],
     Scope.mk ScopeKind.classDef [("y", [1])]] 0 (by decide)]
  rfl

/-- C1: during the upward walk, every class-like enclosing scope is
skipped: from a function scope not binding the name, the lookup over
`f :: cs ++ [m]` (all of `cs` class-like, `m` the module) equals the
lookup in the module scope alone; a name bound only in a class body is
never the result, while a name bound in the module scope and kept by
the filter is found there. -/
theorem scope_lookup_skips_class_scopes
    (φ : Nat → List Nat → Scope → Nat → List Nat)
    (bL : List (String × List Nat)) (node : Nat) (name : String) (offset : Nat)
    (f m : Scope) (cs : List Scope)
    (hf : lookupAssocL f.locals name = none)
    (hcs : ∀ c ∈ cs, c.kind = ScopeKind.classDef)
    (hm : m.kind = ScopeKind.module) :
    (scope_lookup φ bL node name (f :: (cs ++ [m])) offset
      = scope_lookup φ bL node name [m] 0)
    ∧ (∀ c ∈ cs, ∀ stmts,
        scope_lookup φ bL node name (f :: (cs ++ [m])) offset
          ≠ LookupRes.found c stmts)
    ∧ (lookupAssocL m.locals name = none →
        scope_lookup φ bL node name (f :: (cs ++ [m])) offset
          = builtin_lookup bL name)
    ∧ (∀ raw, lookupAssocL m.locals name = some raw →
        φ node raw m 0 ≠ [] →
        scope_lookup φ bL node name (f :: (cs ++ [m])) offset
          = LookupRes.found m (φ node raw m 0)) := by
  have hdrop : dropClassScopes (cs ++ [m]) = [m] := by
    rw [dropClassScopes_all_class cs [m] hcs]
    simp [dropClassScopes, hm]
  have h1 : scope_lookup φ bL node name (f :: (cs ++ [m])) offset
      = scope_lookup φ bL node name [m] 0 := by
    rw [scope_lookup_absent_step φ bL node name f (cs ++ [m]) offset hf, hdrop]
  have hshape : scope_lookup φ bL node name [m] 0 = builtin_lookup bL name
      ∨ ∃ stmts, scope_lookup φ bL node name [m] 0 = LookupRes.found m stmts := by
    cases hml : lookupAssocL m.locals name with
    | none =>
      left
      rw [scope_lookup_absent_step φ bL node name m [] 0 hml]
      rfl
    | some raw =>
      cases hphi : φ node raw m 0 with
      | nil =>
        left
        rw [scope_lookup_filtered_empty_step φ bL node name m [] 0 raw hml hphi]
        rfl
      | cons a l =>
        right
        refine ⟨a :: l, ?_⟩
        rw [scope_lookup_found_step φ bL node name m [] 0 raw hml
          (by simp [hphi]), hphi]
  refine ⟨h1, ?_, ?_, ?_⟩
  · intro c hc stmts hEq
    rw [h1] at hEq
    rcases hshape with h2 | ⟨st2, h2⟩
    · rw [h2] at hEq
      simp [builtin_lookup] at hEq
    · rw [h2] at hEq
      have hcm : m = c := by
        injection hEq with hcm _
      have hck : c.kind = ScopeKind.classDef := hcs c hc
      rw [← hcm, hm] at hck
      exact absurd hck (by simp)
  · intro hml
    rw [h1, scope_lookup_absent_step φ bL node name m [] 0 hml]
    rfl
  · intro raw hml hphi
    rw [h1, scope_lookup_found_step φ bL node name m [] 0 raw hml hphi]

/-- Witness for C1 at the chain Module, ClassDef, FunctionDef with the
name bound in both the class body and the module. -/
theorem scope_lookup_skips_class_scopes_witness :
    scope_lookup (fun _ raw _ _ => raw) [] 0 "x"
        (Scope.mk ScopeKind.functionDef [] ::
          ([Scope.mk ScopeKind.classDef [("x", [7])]]
            ++ [Scope.mk ScopeKind.module [("x", [3])]])) 0
      = LookupRes.found (Scope.mk ScopeKind.module [("x", [3])]) [3] := by
  have h := scope_lookup_skips_class_scopes (fun _ raw _ _ => raw) [] 0 "x" 0
    (Scope.mk ScopeKind.functionDef [])
    (Scope.mk ScopeKind.module [("x", [3])])
    [Scope.mk ScopeKind.classDef [("x", [7])]]
    (by decide) (by decide) rfl
  exact h.2.2.2 [3] (by decide) (by decide)

theorem runHooksCount_pre_fail (modname : String) (original : Err) :
    ∀ (pre : List (String → Except Err ModTree)) hk post (t : ModTree),
      (∀ g ∈ pre, ∀ t2, g modname ≠ Except.ok t2) →
      hk modname = Except.ok t →
      runFailedImportHooksCount (pre ++ hk :: post) modname original
        = (Except.ok t, pre.length + 1) := by
  intro pre
  induction pre with
  | nil =>
    intro hk post t _ hok
    simp [runFailedImportHooksCount, hok]
  | cons g rest ih =>
    intro hk post t hfail hok
    have hg : ∀ t2, g modname ≠ Except.ok t2 := hfail g (by simp)
    simp only [List.cons_append, runFailedImportHooksCount]
    cases hgm : g modname with
    | ok t2 => exact absurd hgm (hg t2)
    | error e2 =>
      have hih := ih hk post t (fun q hq => hfail q (by simp [hq])) hok
      simp [hih]

theorem runHooks_all_fail (modname : String) (original : Err) :
    ∀ hooks, (∀ g ∈ hooks, ∀ t2, g modname ≠ Except.ok t2) →
      runFailedImportHooks hooks modname original = Except.error original := by
  intro hooks
  induction hooks with
  | nil => intro _; rfl
  | cons g rest ih =>
    intro hfail
    simp only [runFailedImportHooks]
    cases hgm : g modname with
    | ok t2 => exact absurd hgm (hfail g (by simp) t2)
    | error e2 => exact ih fun q hq t2 => hfail q (by simp [hq]) t2

theorem zipImportGo_none (trySplit : String → String → Option (String × String))
    (extract : String → String → String → Except Unit ModTree)
    (filepath : String) :
    ∀ exts, (∀ ext ∈ exts, ∀ egg res,
        trySplit ext filepath = some (egg, res) →
        ∀ mm, extract ext egg res ≠ Except.ok mm) →
      zipImportGo trySplit extract filepath exts = none := by
  intro exts
  induction exts with
  | nil => intro _; rfl
  | cons ext rest ih =>
    intro hfail
    simp only [zipImportGo]
    cases hsp : trySplit ext filepath with
    | none => exact ih fun e he => hfail e (by simp [he])
    | some pr =>
      obtain ⟨egg, res⟩ := pr
      show (match extract ext egg res with
        | Except.ok m => some m
        | Except.error _ => zipImportGo trySplit extract filepath rest) = none
      cases hex : extract ext egg res with
      | ok mm => exact absurd hex (hfail ext (by simp) egg res hsp mm)
      | error u => exact ih fun e he => hfail e (by simp [he])

theorem registerVisitorTransform_lookup (vs : List (Nat × List Nat))
    (id t id2 : Nat) :
    alookup (registerVisitorTransform vs id t) id2 =
      if id2 = id then (alookup vs id).map (fun u => u ++ [t])
      else alookup vs id2 := by
  induction vs with
  | nil =>
    simp only [registerVisitorTransform, alookup]
    split <;> rfl
  | cons p rest ih =>
    obtain ⟨k, v⟩ := p
    by_cases hk : k = id
    · subst hk
      by_cases h2 : id2 = k
      · subst h2; simp [registerVisitorTransform, alookup]
      · simp [registerVisitorTransform, alookup, h2, Ne.symm h2]
    · by_cases h2 : id2 = k
      · subst h2
        simp [registerVisitorTransform, alookup, hk,
          fun h : id2 = id => hk (h ▸ rfl)]
      · simp [registerVisitorTransform, alookup, hk, Ne.symm h2, ih]

/-- C2: a `BuildingError` raised during name-based resolution runs the
failure hooks in registration order; the first hook that returns a tree
determines the result and later hooks are never invoked (the invocation
count stops at it); individual hook errors are suppressed; and when
every hook fails, the original resolution error is re-raised. -/
theorem failed_import_hooks_order (env : ResolveEnv) (modname : String)
    (cf : Option String) (e : Err)
    (hmiss : alookup env.cache modname = none)
    (hmain : modname ≠ "__main__")
    (hbody : resolveSpecBody env modname cf = Except.error e) :
    (ast_from_module_name env modname cf
      = (runFailedImportHooksCount env.hooks modname e).1)
    ∧ (∀ pre hk post (t : ModTree), env.hooks = pre ++ hk :: post →
        (∀ g ∈ pre, ∀ t2, g modname ≠ Except.ok t2) →
        hk modname = Except.ok t →
        runFailedImportHooksCount env.hooks modname e
          = (Except.ok t, pre.length + 1))
    ∧ ((∀ g ∈ env.hooks, ∀ t2, g modname ≠ Except.ok t2) →
        ast_from_module_name env modname cf = Except.error e) := by
  have hafmn : ast_from_module_name env modname cf
      = runFailedImportHooks env.hooks modname e := by
    simp only [ast_from_module_name, hmiss, hbody, if_neg hmain]
  refine ⟨?_, ?_, ?_⟩
  · rw [hafmn, runFailedImportHooksCount_fst]
  · intro pre hk post t hsplit hfail hok
    rw [hsplit]
    exact runHooksCount_pre_fail modname e pre hk post t hfail hok
  · intro hallfail
    rw [hafmn]
    exact runHooks_all_fail modname e env.hooks hallfail

/-- Witness for C2: three hooks, the first failing and the second
succeeding; the second's tree is returned after exactly two
invocations, so the third is never invoked. -/
theorem failed_import_hooks_order_witness :
    (runFailedImportHooksCount
        [fun _ => Except.error { msg := "h1 failed" },
         fun _ => Except.ok { name := "T" },
         fun _ => Except.ok { name := "T3" }]
        "mod" { msg := "original" }
      = (Except.ok { name := "T" }, 2))
    ∧ (ast_from_module_name
        { cache := [], buildStub := fun n => { name := n },
          fileFromModuleName := fun _ _ => Except.error { msg := "original" },
          zipData := fun _ => none, canLoadExtension := fun _ => false,
          loadModule := fun _ => Except.error "boom",
          astFromModuleObj := fun _ n => Except.ok { name := n },
          buildNamespace := fun n _ => { name := n },
          astFromFile := fun _ n => Except.ok { name := n },
          hooks := [fun _ => Except.error { msg := "h1 failed" },
                    fun _ => Except.ok { name := "T" },
                    fun _ => Except.ok { name := "T3" }] }
        "mod" none
      = Except.ok { name := "T" }) := by
  have h := failed_import_hooks_order
    { cache := [], buildStub := fun n => { name := n },
      fileFromModuleName := fun _ _ => Except.error { msg := "original" },
      zipData := fun _ => none, canLoadExtension := fun _ => false,
      loadModule := fun _ => Except.error "boom",
      astFromModuleObj := fun _ n => Except.ok { name := n },
      buildNamespace := fun n _ => { name := n },
      astFromFile := fun _ n => Except.ok { name := n },
      hooks := [fun _ => Except.error { msg := "h1 failed" },
                fun _ => Except.ok { name := "T" },
                fun _ => Except.ok { name := "T3" }] }
    "mod" none { msg := "original" } rfl (by decide) rfl
  have hc := h.2.1 [fun _ => Except.error { msg := "h1 failed" }]
    (fun _ => Except.ok { name := "T" })
    [fun _ => Except.ok { name := "T3" }] { name := "T" } rfl
    (by
      intro g hg t2
      simp only [List.mem_singleton] at hg
      subst hg
      simp)
    rfl
  exact ⟨hc, by rw [h.1, hc]⟩

/-- C3: a failing spec lookup stores the wrapped failure in the spec
cache, bumps the expensive-lookup counter once, and every subsequent
lookup with the same key re-raises the same cached error with its
traceback stripped while leaving the state unchanged. -/
theorem spec_cache_failure_memoized
    (fileInfo : String → Option String → Except Err FoundSpec)
    (st : SpecState) (modname : String) (cf : Option String) (e : Err)
    (hmiss : alookup st.cache (modname, cf) = none)
    (herr : fileInfo modname cf = Except.error e) :
    ((file_from_module_name fileInfo st modname cf).1
      = Except.error (stripTb (wrapImportErr modname (stripTb e))))
    ∧ ((file_from_module_name fileInfo st modname cf).2.computeCount
      = st.computeCount + 1)
    ∧ (alookup (file_from_module_name fileInfo st modname cf).2.cache
        (modname, cf)
      = some (CacheVal.failure (wrapImportErr modname (stripTb e))))
    ∧ (file_from_module_name fileInfo
        (file_from_module_name fileInfo st modname cf).2 modname cf
      = file_from_module_name fileInfo st modname cf) := by
  have h1 : file_from_module_name fileInfo st modname cf
      = (Except.error (stripTb (wrapImportErr modname (stripTb e))),
         { cache := st.cache ++ [((modname, cf),
             CacheVal.failure (wrapImportErr modname (stripTb e)))],
           computeCount := st.computeCount + 1 }) := by
    simp only [file_from_module_name, hmiss, herr]
  have h2 : alookup
      (st.cache ++ [((modname, cf),
        CacheVal.failure (wrapImportErr modname (stripTb e)))]) (modname, cf)
      = some (CacheVal.failure (wrapImportErr modname (stripTb e))) := by
    rw [alookup_append, hmiss]
    simp [alookup]
  have h3 : file_from_module_name fileInfo
      ({ cache := st.cache ++ [((modname, cf),
           CacheVal.failure (wrapImportErr modname (stripTb e)))],
         computeCount := st.computeCount + 1 } : SpecState) modname cf
      = (Except.error (stripTb (wrapImportErr modname (stripTb e))),
         { cache := st.cache ++ [((modname, cf),
             CacheVal.failure (wrapImportErr modname (stripTb e)))],
           computeCount := st.computeCount + 1 }) := by
    simp only [file_from_module_name, h2]
  refine ⟨?_, ?_, ?_, ?_⟩
  · rw [h1]
  · rw [h1]
  · rw [h1]
    exact h2
  · rw [h1]
    exact h3

/-- Witness for C3 at an empty spec cache and an always-failing
lookup. -/
theorem spec_cache_failure_memoized_witness :
    ((file_from_module_name (fun _ _ => Except.error { msg := "nope" })
        { cache := [], computeCount := 0 } "m" none).1
      = Except.error (stripTb (wrapImportErr "m" (stripTb { msg := "nope" }))))
    ∧ ((file_from_module_name (fun _ _ => Except.error { msg := "nope" })
        { cache := [], computeCount := 0 } "m" none).2.computeCount = 1) := by
  have h := spec_cache_failure_memoized
    (fun _ _ => Except.error { msg := "nope" })
    { cache := [], computeCount := 0 } "m" none { msg := "nope" } rfl rfl
  exact ⟨h.1, h.2.1⟩

/-- C4: `ast_from_file` returns a cached tree exactly when one is
cached under the derived module name with a recorded file equal to the
(normalized) filepath; a same-name entry with a different recorded file
is bypassed, never returned. -/
theorem ast_from_file_cache_hit_iff (env : FileEnv) (filepath : String)
    (modname : Option String) (fallback source : Bool) :
    (∀ t : ModTree,
      (ast_from_file env filepath modname fallback source
        = AFFOutcome.cachedHit t)
        ↔ (alookup env.cache
              (derivedModname env.modpathFromFile
                (normalizedSource env.getSourceFile filepath source).1 modname)
            = some t
          ∧ t.file = some (normalizedSource env.getSourceFile filepath source).1))
    ∧ (∀ t : ModTree,
        alookup env.cache
            (derivedModname env.modpathFromFile
              (normalizedSource env.getSourceFile filepath source).1 modname)
          = some t →
        t.file ≠ some (normalizedSource env.getSourceFile filepath source).1 →
        ∀ u, ast_from_file env filepath modname fallback source
          ≠ AFFOutcome.cachedHit u) := by
  have hunf : ast_from_file env filepath modname fallback source =
      (match cacheHitFile env.cache
          (derivedModname env.modpathFromFile
            (normalizedSource env.getSourceFile filepath source).1 modname)
          (normalizedSource env.getSourceFile filepath source).1 with
       | some t => AFFOutcome.cachedHit t
       | none =>
         if (normalizedSource env.getSourceFile filepath source).2 then
           AFFOutcome.sourceBuild
             (normalizedSource env.getSourceFile filepath source).1
             (derivedModname env.modpathFromFile
               (normalizedSource env.getSourceFile filepath source).1 modname)
         else if fallback = true ∧
             (derivedModname env.modpathFromFile
               (normalizedSource env.getSourceFile filepath source).1 modname)
             ≠ "" then
           AFFOutcome.fallbackByName
             (derivedModname env.modpathFromFile
               (normalizedSource env.getSourceFile filepath source).1 modname)
         else AFFOutcome.buildError
           (normalizedSource env.getSourceFile filepath source).1) := rfl
  have hch : ∀ t : ModTree,
      cacheHitFile env.cache
          (derivedModname env.modpathFromFile
            (normalizedSource env.getSourceFile filepath source).1 modname)
          (normalizedSource env.getSourceFile filepath source).1 = some t
        ↔ (alookup env.cache
            (derivedModname env.modpathFromFile
              (normalizedSource env.getSourceFile filepath source).1 modname)
          = some t
        ∧ t.file = some (normalizedSource env.getSourceFile filepath source).1) := by
    intro t
    unfold cacheHitFile
    split
    next t0 heq =>
      rw [heq]
      by_cases hf0 : t0.file
          = some (normalizedSource env.getSourceFile filepath source).1
      · rw [if_pos hf0]
        constructor
        · intro h2
          injection h2 with h2
          subst h2
          exact ⟨rfl, hf0⟩
        · rintro ⟨h2, h3⟩
          injection h2 with h2
          subst h2
          rfl
      · rw [if_neg hf0]
        constructor
        · intro h2
          exact absurd h2 (by simp)
        · rintro ⟨h2, h3⟩
          injection h2 with h2
          subst h2
          exact absurd h3 hf0
    next heq =>
      rw [heq]
      simp
  have hiff : ∀ t : ModTree,
      (ast_from_file env filepath modname fallback source
        = AFFOutcome.cachedHit t)
        ↔ (alookup env.cache
              (derivedModname env.modpathFromFile
                (normalizedSource env.getSourceFile filepath source).1 modname)
            = some t
          ∧ t.file
            = some (normalizedSource env.getSourceFile filepath source).1) := by
    intro t
    rw [hunf]
    split
    next t0 hcf =>
      constructor
      · intro h2
        injection h2 with h2
        subst h2
        exact (hch t0).mp hcf
      · intro h2
        have h3 := (hch t).mpr h2
        rw [hcf] at h3
        injection h3 with h3
        rw [h3]
    next hcf =>
      constructor
      · intro h2
        by_cases hs : (normalizedSource env.getSourceFile filepath source).2
            = true
        · rw [if_pos hs] at h2
          exact absurd h2 (by simp)
        · rw [if_neg hs] at h2
          by_cases hfb : fallback = true ∧
              (derivedModname env.modpathFromFile
                (normalizedSource env.getSourceFile filepath source).1 modname)
              ≠ ""
          · rw [if_pos hfb] at h2
            exact absurd h2 (by simp)
          · rw [if_neg hfb] at h2
            exact absurd h2 (by simp)
      · intro h2
        have h3 := (hch t).mpr h2
        rw [hcf] at h3
        exact absurd h3 (by simp)
  refine ⟨hiff, ?_⟩
  intro t hal hfile u hEq
  obtain ⟨hal2, hfile2⟩ := (hiff u).mp hEq
  rw [hal] at hal2
  injection hal2 with h3
  subst h3
  exact hfile hfile2

/-- Witness for C4: a cache entry under the derived name whose recorded
file differs from the requested path is not returned. -/
theorem ast_from_file_cache_hit_iff_witness :
    ast_from_file
        { getSourceFile := fun p => some p, modpathFromFile := fun _ => none,
          cache := [("a.py", { name := "a.py", file := some "other.py" })] }
        "a.py" none true false
      ≠ AFFOutcome.cachedHit { name := "a.py", file := some "other.py" } := by
  have h := ast_from_file_cache_hit_iff
    { getSourceFile := fun p => some p, modpathFromFile := fun _ => none,
      cache := [("a.py", { name := "a.py", file := some "other.py" })] }
    "a.py" none true false
  exact h.2 { name := "a.py", file := some "other.py" } (by decide) (by decide)
    { name := "a.py", file := some "other.py" }

/-- Counterexample for C5: a transform registered on an instance before
`clear_cache` still fires when that same instance applies transforms
after the reset, because `self._transform` keeps referencing the old
visitor object. -/
theorem clear_cache_old_instance_transform_fires :
    visit_transforms
        (clear_cache (register_transform initialBrain (newManager initialBrain) 42) [])
        (newManager initialBrain)
      = [42] := by decide

/-- C5 amended: after `clear_cache`, the module cache holds exactly the
freshly rebuilt builtins bootstrap tree, and the brain-level transform
pipeline is replaced so an instance constructed after the reset sees
only the plugin-reload transforms; but an instance constructed before
the reset keeps its alias to the old pipeline, so a transform
registered on it before the reset still fires on that instance. -/
theorem clear_cache_reset_behavior (st : BrainState) (inst : ManagerInstance)
    (t : Nat) (plugins : List Nat) (l : List Nat)
    (hkeys : ∀ p ∈ st.visitors, p.1 < st.nextId)
    (hinst : alookup st.visitors inst.transformRef = some l) :
    ((clear_cache st plugins).astroidCache
      = [(bootstrapTree.name, bootstrapTree)])
    ∧ (∀ name2, name2 ≠ bootstrapTree.name →
        alookup (clear_cache st plugins).astroidCache name2 = none)
    ∧ (visit_transforms (clear_cache st plugins)
        (newManager (clear_cache st plugins)) = plugins)
    ∧ (visit_transforms (clear_cache (register_transform st inst t) plugins)
        inst = l ++ [t]) := by
  refine ⟨rfl, ?_, ?_, ?_⟩
  · intro name2 hne
    simp [clear_cache, alookup, Ne.symm hne]
  · have hnone : alookup st.visitors st.nextId = none :=
      alookup_none_of_keys _ _ fun p hp => Nat.ne_of_lt (hkeys p hp)
    simp only [visit_transforms, clear_cache, newManager]
    rw [alookup_append, hnone]
    simp [alookup]
  · have hhit : alookup (registerVisitorTransform st.visitors
        inst.transformRef t) inst.transformRef = some (l ++ [t]) := by
      rw [registerVisitorTransform_lookup, if_pos rfl, hinst]
      rfl
    simp only [visit_transforms, clear_cache, register_transform]
    rw [alookup_append, hhit]
    rfl

/-- Witness for C5 amended: on a fresh Borg state, a transform
registered before the reset still fires on the old instance. -/
theorem clear_cache_reset_behavior_witness :
    (42 : Nat) ∈ visit_transforms
        (clear_cache (register_transform initialBrain (newManager initialBrain) 42) [7])
        (newManager initialBrain) := by
  have h := clear_cache_reset_behavior initialBrain (newManager initialBrain)
    42 [7] [] (by decide) rfl
  rw [h.2.2.2]
  simp

/-- C8: archive-import failures are absorbed suffix by suffix; when no
suffix yields a tree, `zip_import_data` reports `none` rather than an
error, and the caller's ordinary resolution path (the location-based
default) then continues. -/
theorem zip_import_failures_absorbed
    (trySplit : String → String → Option (String × String))
    (extract : String → String → String → Except Unit ModTree)
    (filepath : String)
    (hfail : ∀ ext ∈ ZIP_IMPORT_EXTS, ∀ egg res,
        trySplit ext filepath = some (egg, res) →
        ∀ mm, extract ext egg res ≠ Except.ok mm) :
    zip_import_data trySplit extract filepath = none
    ∧ (∀ ext rest,
        (∀ egg res, trySplit ext filepath = some (egg, res) →
          ∀ mm, extract ext egg res ≠ Except.ok mm) →
        zipImportGo trySplit extract filepath (ext :: rest)
          = zipImportGo trySplit extract filepath rest)
    ∧ (∀ (env : ResolveEnv) modname cf fs,
        env.fileFromModuleName modname cf = Except.ok fs →
        fs.type = ModType.pyZipmodule →
        env.zipData fs.location = none →
        resolveSpecBody env modname cf = defaultFilePath env modname fs) := by
  refine ⟨zipImportGo_none trySplit extract filepath ZIP_IMPORT_EXTS hfail,
    ?_, ?_⟩
  · intro ext rest hf
    simp only [zipImportGo]
    cases hsp : trySplit ext filepath with
    | none => rfl
    | some pr =>
      obtain ⟨egg, res⟩ := pr
      show (match extract ext egg res with
        | Except.ok m => some m
        | Except.error _ => zipImportGo trySplit extract filepath rest)
        = zipImportGo trySplit extract filepath rest
      cases hex : extract ext egg res with
      | ok mm => exact absurd hex (hf egg res hsp mm)
      | error u => rfl
  · intro env modname cf fs h1 h2 h3
    simp [resolveSpecBody, h1, h2, h3]

/-- Witness for C8: splitting fails on every suffix, so archive import
reports no result. -/
theorem zip_import_failures_absorbed_witness :
    zip_import_data (fun _ _ => none) (fun _ _ _ => Except.error ())
      "pkg.zip/m.py" = none :=
  (zip_import_failures_absorbed (fun _ _ => none)
    (fun _ _ _ => Except.error ()) "pkg.zip/m.py"
    (fun _ _ _ _ _ _ => by simp)).1

/-- Counterexample for C9: a class object exposing a module attribute
but no name attribute makes `ast_from_class` raise a plain
`AttributeError` (from the unguarded `klass.__name__` access), not a
`BuildingError`. -/
theorem ast_from_class_missing_name_not_building_error :
    (ast_from_class (fun _ => Except.ok { name := "m" })
        (fun _ _ => Except.ok 0)
        { moduleAttr := some "m", nameAttr := none } none
      = Except.error PyErr.attributeError)
    ∧ isBuildingError PyErr.attributeError = false :=
  ⟨rfl, rfl⟩

/-- C9 amended: with no module name given, a class object exposing no
module attribute causes a `BuildingError`; a class object exposing no
name attribute instead causes an unwrapped `AttributeError` to
propagate (not a `BuildingError`). -/
theorem ast_from_class_error_kinds
    (f : String → Except PyErr ModTree)
    (g : ModTree → String → Except PyErr Nat) (klass : PyClass) :
    (klass.moduleAttr = none →
      ast_from_class f g klass none
        = Except.error (PyErr.buildingError "Unable to get module for class"))
    ∧ (∀ mn tree, klass.moduleAttr = some mn → f mn = Except.ok tree →
        klass.nameAttr = none →
        ast_from_class f g klass none = Except.error PyErr.attributeError) := by
  constructor
  · intro h
    simp [ast_from_class, h]
  · intro mn tree h1 h2 h3
    simp [ast_from_class, h1, h2, h3]

/-- Witness for C9 amended: both error paths at concrete class
objects. -/
theorem ast_from_class_error_kinds_witness :
    (ast_from_class (fun _ => Except.ok { name := "m" })
        (fun _ _ => Except.ok 0)
        { moduleAttr := none, nameAttr := some "C" } none
      = Except.error (PyErr.buildingError "Unable to get module for class"))
    ∧ (ast_from_class (fun _ => Except.ok { name := "m" })
        (fun _ _ => Except.ok 0)
        { moduleAttr := some "m", nameAttr := none } none
      = Except.error PyErr.attributeError) :=
  ⟨(ast_from_class_error_kinds (fun _ => Except.ok { name := "m" })
      (fun _ _ => Except.ok 0) { moduleAttr := none, nameAttr := some "C" }).1
      rfl,
   (ast_from_class_error_kinds (fun _ => Except.ok { name := "m" })
      (fun _ _ => Except.ok 0) { moduleAttr := some "m", nameAttr := none }).2
      "m" { name := "m" } rfl rfl rfl⟩

end Astroid
